import Mathlib

/-!
Verification development for the remote serial bridge
(`tools/remote_serial.py`): a shallow embedding of the
VirtualSerialPort, the Phoenix channel client, the RFC 2217 codec and
the bridge's mode-specific callback handlers, with theorems settling
the frozen behavioural claims.

Bytes and Unicode code points are modelled as `Nat`; Python `str`
values are lists of code points (`List Nat`), Python `bytes` are lists
of byte values.
-/

/-- Code points of a Lean string literal; for a pure-ASCII literal this
is also its UTF-8 byte sequence. Used to write concrete Python strings
and byte strings in statements. -/
def strCodes (s : String) : List Nat := s.toList.map Char.toNat

/-- Whitespace test of Python `str.isspace` / `str.strip()` /
`str.split(None)`: ASCII whitespace, the C1 separators 0x1C-0x1F, and
the Unicode space separators. -/
def isPySpace (c : Nat) : Bool :=
  decide (c = 9 ∨ c = 10 ∨ c = 11 ∨ c = 12 ∨ c = 13 ∨
    (28 ≤ c ∧ c ≤ 31) ∨ c = 32 ∨ c = 0x85 ∨ c = 0xA0 ∨ c = 0x1680 ∨
    (0x2000 ≤ c ∧ c ≤ 0x200A) ∨ c = 0x2028 ∨ c = 0x2029 ∨
    c = 0x202F ∨ c = 0x205F ∨ c = 0x3000)

/-- Python `str.strip()`: drop leading and trailing whitespace. -/
def pyStrip (s : List Nat) : List Nat :=
  ((s.dropWhile isPySpace).reverse.dropWhile isPySpace).reverse

/-- Python `text.split(None, 1)`: skip leading whitespace, take the
first run of non-whitespace as the first token, skip the following
whitespace run, and return the remainder verbatim when it is
nonempty. -/
def pySplit1 (s : List Nat) : List (List Nat) :=
  let s1 := s.dropWhile isPySpace
  if s1.isEmpty then []
  else
    let tok := s1.takeWhile (fun c => !isPySpace c)
    let rest := (s1.dropWhile (fun c => !isPySpace c)).dropWhile isPySpace
    if rest.isEmpty then [tok] else [tok, rest]

/-- JSON values as produced by Python `json.loads`: object keys and
strings are code-point lists, numbers are exact rationals. -/
inductive Json where
  | null : Json
  | bool (b : Bool) : Json
  | num (q : Rat) : Json
  | str (s : List Nat) : Json
  | arr (elems : List Json) : Json
  | obj (fields : List (List Nat × Json)) : Json

/-- String content of a JSON value, when it is a string; used to model
Python `==` comparisons between a decoded JSON field and a string. -/
def jAsStr : Json → Option (List Nat)
  | .str s => some s
  | _ => none

/-- Continuation-byte test for UTF-8 decoding. -/
def utf8Cont (c : Nat) : Bool := decide (0x80 ≤ c ∧ c ≤ 0xBF)

/-- Decode one UTF-8 sequence whose lead byte is `b` and whose
following bytes are `rest`: the decoded code point (`none` when the
sequence is invalid at `b`) and how many bytes of `rest` belong to the
maximal subpart (overlong forms, surrogates and values above U+10FFFF
are invalid, as in CPython). -/
def utf8Step (b : Nat) (rest : List Nat) : Option Nat × Nat :=
  if b < 0x80 then (some b, 0)
  else if 0xC2 ≤ b ∧ b ≤ 0xDF then
    match rest with
    | c :: _ =>
      if utf8Cont c then (some ((b - 0xC0) * 0x40 + (c - 0x80)), 1) else (none, 0)
    | [] => (none, 0)
  else if 0xE0 ≤ b ∧ b ≤ 0xEF then
    match rest with
    | c :: rest2 =>
      if (if b = 0xE0 then 0xA0 else 0x80) ≤ c ∧
          c ≤ (if b = 0xED then 0x9F else 0xBF) then
        match rest2 with
        | d :: _ =>
          if utf8Cont d then
            (some ((b - 0xE0) * 0x1000 + (c - 0x80) * 0x40 + (d - 0x80)), 2)
          else (none, 1)
        | [] => (none, 1)
      else (none, 0)
    | [] => (none, 0)
  else if 0xF0 ≤ b ∧ b ≤ 0xF4 then
    match rest with
    | c :: rest2 =>
      if (if b = 0xF0 then 0x90 else 0x80) ≤ c ∧
          c ≤ (if b = 0xF4 then 0x8F else 0xBF) then
        match rest2 with
        | d :: rest3 =>
          if utf8Cont d then
            match rest3 with
            | e :: _ =>
              if utf8Cont e then
                (some ((b - 0xF0) * 0x40000 + (c - 0x80) * 0x1000 +
                  (d - 0x80) * 0x40 + (e - 0x80)), 3)
              else (none, 2)
            | [] => (none, 2)
          else (none, 1)
        | [] => (none, 1)
      else (none, 0)
    | [] => (none, 0)
  else (none, 0)

/-- Decoding loop of `bytes.decode("utf-8", errors="ignore")`; each
step consumes at least one byte, so `fuel` bounds the recursion (the
wrapper passes the input length, which is always enough). -/
def utf8DecodeGo : Nat → List Nat → List Nat
  | 0, _ => []
  | _ + 1, [] => []
  | fuel + 1, b :: rest =>
    match utf8Step b rest with
    | (some cp, k) => cp :: utf8DecodeGo fuel (rest.drop k)
    | (none, k) => utf8DecodeGo fuel (rest.drop k)

/-- Python `bytes.decode("utf-8", errors="ignore")`: decode UTF-8,
skipping the maximal subpart of any invalid sequence. The result is
the list of decoded code points. -/
def utf8DecodeIgnore (l : List Nat) : List Nat := utf8DecodeGo l.length l

/-- JSON whitespace skip (space, tab, newline, carriage return), as in
Python's `json` scanner. -/
def skipJWs (s : List Nat) : List Nat :=
  s.dropWhile (fun c => c == 32 || c == 9 || c == 10 || c == 13)

/-- Decimal digit test. -/
def isJDigit (c : Nat) : Bool := decide (48 ≤ c ∧ c ≤ 57)

/-- Value of a list of decimal digit code points. -/
def digitsVal (l : List Nat) : Nat := l.foldl (fun a c => a * 10 + (c - 48)) 0

/-- Value of a hexadecimal digit code point. -/
def hexVal (c : Nat) : Option Nat :=
  if 48 ≤ c ∧ c ≤ 57 then some (c - 48)
  else if 97 ≤ c ∧ c ≤ 102 then some (c - 87)
  else if 65 ≤ c ∧ c ≤ 70 then some (c - 55)
  else none

/-- Test whether the input starts with a backslash-u escape
introducer. -/
def startsUEscape : List Nat → Bool
  | 92 :: 117 :: _ => true
  | _ => false

/-- Loop of the JSON string-literal scanner; every step consumes at
least one character, so `fuel` bounds the recursion (the wrapper
passes the input length plus one, which is always enough). -/
def parseJStringGo : Nat → List Nat → Option (List Nat × List Nat)
  | 0, _ => none
  | _ + 1, [] => none
  | _ + 1, 34 :: t => some ([], t)
  | fuel + 1, 92 :: 34 :: t => (parseJStringGo fuel t).map (fun r => (34 :: r.1, r.2))
  | fuel + 1, 92 :: 92 :: t => (parseJStringGo fuel t).map (fun r => (92 :: r.1, r.2))
  | fuel + 1, 92 :: 47 :: t => (parseJStringGo fuel t).map (fun r => (47 :: r.1, r.2))
  | fuel + 1, 92 :: 98 :: t => (parseJStringGo fuel t).map (fun r => (8 :: r.1, r.2))
  | fuel + 1, 92 :: 102 :: t => (parseJStringGo fuel t).map (fun r => (12 :: r.1, r.2))
  | fuel + 1, 92 :: 110 :: t => (parseJStringGo fuel t).map (fun r => (10 :: r.1, r.2))
  | fuel + 1, 92 :: 114 :: t => (parseJStringGo fuel t).map (fun r => (13 :: r.1, r.2))
  | fuel + 1, 92 :: 116 :: t => (parseJStringGo fuel t).map (fun r => (9 :: r.1, r.2))
  | fuel + 1, 92 :: 117 :: h1 :: h2 :: h3 :: h4 :: 92 :: 117 :: g1 :: g2 :: g3 :: g4 :: t =>
    match hexVal h1, hexVal h2, hexVal h3, hexVal h4 with
    | some a, some b, some c, some d =>
      let cp := a * 4096 + b * 256 + c * 16 + d
      if 0xD800 ≤ cp ∧ cp ≤ 0xDBFF then
        match hexVal g1, hexVal g2, hexVal g3, hexVal g4 with
        | some a2, some b2, some c2, some d2 =>
          let cp2 := a2 * 4096 + b2 * 256 + c2 * 16 + d2
          if 0xDC00 ≤ cp2 ∧ cp2 ≤ 0xDFFF then
            (parseJStringGo fuel t).map
              (fun r => ((0x10000 + (cp - 0xD800) * 0x400 + (cp2 - 0xDC00)) :: r.1, r.2))
          else
            (parseJStringGo fuel (92 :: 117 :: g1 :: g2 :: g3 :: g4 :: t)).map
              (fun r => (cp :: r.1, r.2))
        | _, _, _, _ => none
      else
        (parseJStringGo fuel (92 :: 117 :: g1 :: g2 :: g3 :: g4 :: t)).map
          (fun r => (cp :: r.1, r.2))
    | _, _, _, _ => none
  | fuel + 1, 92 :: 117 :: h1 :: h2 :: h3 :: h4 :: t =>
    match hexVal h1, hexVal h2, hexVal h3, hexVal h4 with
    | some a, some b, some c, some d =>
      let cp := a * 4096 + b * 256 + c * 16 + d
      if 0xD800 ≤ cp ∧ cp ≤ 0xDBFF then
        if startsUEscape t then none
        else (parseJStringGo fuel t).map (fun r => (cp :: r.1, r.2))
      else (parseJStringGo fuel t).map (fun r => (cp :: r.1, r.2))
    | _, _, _, _ => none
  | _ + 1, 92 :: _ => none
  | fuel + 1, c :: t =>
    if c < 0x20 then none
    else (parseJStringGo fuel t).map (fun r => (c :: r.1, r.2))

/-- Body of a JSON string literal after the opening quote: the decoded
code points and the input after the closing quote. Escapes follow the
JSON grammar, `\uXXXX` surrogate pairs are combined and lone
surrogates kept, and unescaped control characters are rejected, as in
the strict mode of `json.loads`. -/
def parseJStringAux (s : List Nat) : Option (List Nat × List Nat) :=
  parseJStringGo (s.length + 1) s

/-- Fraction and exponent tail of a JSON number whose integer part has
sign `neg` and digits value `intVal`; returns the exact rational value
and the unconsumed input (longest-match, as the `json` NUMBER_RE). -/
def parseNumTail (neg : Bool) (intVal : Nat) (s : List Nat) : Rat × List Nat :=
  let fr : List Nat × List Nat :=
    match s with
    | 46 :: t =>
      let ds := t.takeWhile isJDigit
      if ds.isEmpty then ([], s) else (ds, t.dropWhile isJDigit)
    | _ => ([], s)
  let frac := fr.1
  let s2 := fr.2
  let ex : Int × List Nat :=
    match s2 with
    | e :: t =>
      if e = 101 ∨ e = 69 then
        match t with
        | 43 :: t2 =>
          let ds := t2.takeWhile isJDigit
          if ds.isEmpty then (0, s2) else ((digitsVal ds : Int), t2.dropWhile isJDigit)
        | 45 :: t2 =>
          let ds := t2.takeWhile isJDigit
          if ds.isEmpty then (0, s2) else (-(digitsVal ds : Int), t2.dropWhile isJDigit)
        | _ =>
          let ds := t.takeWhile isJDigit
          if ds.isEmpty then (0, s2) else ((digitsVal ds : Int), t.dropWhile isJDigit)
      else (0, s2)
    | [] => (0, s2)
  let mantNat : Nat := intVal * 10 ^ frac.length + digitsVal frac
  let mant : Int := if neg then -(mantNat : Int) else (mantNat : Int)
  let ev : Int := ex.1 - (frac.length : Int)
  (if 0 ≤ ev then ((mant * (10 : Int) ^ ev.toNat : Int) : Rat)
   else mkRat mant (10 ^ (-ev).toNat), ex.2)

/-- JSON number literal at the head of the input: exact rational value
and unconsumed input. The integer part is `0` or starts with a nonzero
digit, as in the JSON grammar. -/
def parseNumber : List Nat → Option (Rat × List Nat)
  | 45 :: s1 =>
    match s1 with
    | 48 :: t => some (parseNumTail true 0 t)
    | c :: t =>
      if 49 ≤ c ∧ c ≤ 57 then
        some (parseNumTail true (digitsVal (c :: t.takeWhile isJDigit)) (t.dropWhile isJDigit))
      else none
    | [] => none
  | 48 :: t => some (parseNumTail false 0 t)
  | c :: t =>
    if 49 ≤ c ∧ c ≤ 57 then
      some (parseNumTail false (digitsVal (c :: t.takeWhile isJDigit)) (t.dropWhile isJDigit))
    else none
  | [] => none

/-- Insert a key into an association list the way building a Python
dict from parsed pairs does: a repeated key keeps its first position
and takes the last value. -/
def insertKey : List (List Nat × Json) → List Nat → Json → List (List Nat × Json)
  | [], k, v => [(k, v)]
  | (k0, v0) :: rest, k, v =>
    if k0 = k then (k0, v) :: rest else (k0, v0) :: insertKey rest k v

mutual

/-- One JSON value at the head of the input (after skipping
whitespace), with the unconsumed input; `fuel` bounds recursion depth
and is chosen large enough by `jsonLoads`. -/
def parseJValue : Nat → List Nat → Option (Json × List Nat)
  | 0, _ => none
  | fuel + 1, s =>
    match skipJWs s with
    | 110 :: 117 :: 108 :: 108 :: t => some (.null, t)
    | 116 :: 114 :: 117 :: 101 :: t => some (.bool true, t)
    | 102 :: 97 :: 108 :: 115 :: 101 :: t => some (.bool false, t)
    | 34 :: t => (parseJStringAux t).map (fun r => (.str r.1, r.2))
    | 91 :: t =>
      match skipJWs t with
      | 93 :: r => some (.arr [], r)
      | _ => parseJItems fuel t []
    | 123 :: t =>
      match skipJWs t with
      | 125 :: r => some (.obj [], r)
      | _ => parseJMembers fuel t []
    | s1 => (parseNumber s1).map (fun r => (.num r.1, r.2))

/-- Elements of a JSON array after the opening bracket. -/
def parseJItems : Nat → List Nat → List Json → Option (Json × List Nat)
  | 0, _, _ => none
  | fuel + 1, s, acc =>
    match parseJValue fuel s with
    | some (v, r) =>
      match skipJWs r with
      | 44 :: r2 => parseJItems fuel r2 (acc ++ [v])
      | 93 :: r2 => some (.arr (acc ++ [v]), r2)
      | _ => none
    | none => none

/-- Members of a JSON object after the opening brace. -/
def parseJMembers : Nat → List Nat → List (List Nat × Json) → Option (Json × List Nat)
  | 0, _, _ => none
  | fuel + 1, s, acc =>
    match skipJWs s with
    | 34 :: t =>
      match parseJStringAux t with
      | some (key, r) =>
        match skipJWs r with
        | 58 :: r2 =>
          match parseJValue fuel r2 with
          | some (v, r3) =>
            match skipJWs r3 with
            | 44 :: r4 => parseJMembers fuel r4 (insertKey acc key v)
            | 125 :: r4 => some (.obj (insertKey acc key v), r4)
            | _ => none
          | none => none
        | _ => none
      | none => none
    | _ => none

end

/-- Python `json.loads` on a code-point string: one JSON value with
only whitespace after it, else failure. -/
def jsonLoads (s : List Nat) : Option Json :=
  match parseJValue (2 * s.length + 4) s with
  | some (v, r) => if (skipJWs r).isEmpty then some v else none
  | none => none

/-- Hard cap on one broadcast message, from the module configuration
(`MAX_BROADCAST_SIZE = 200 * 1024`). -/
def MAX_BROADCAST_SIZE : Nat := 200 * 1024

/-- Chunk threshold of `_on_data_out` in session-relay mode:
`chunk_size = MAX_BROADCAST_SIZE // 2`. -/
def chunkSize : Nat := MAX_BROADCAST_SIZE / 2

/-- Base reconnect delay in seconds (`RECONNECT_DELAY = 5`). -/
def RECONNECT_DELAY : Nat := 5

/-- Character code of the base64 alphabet at index `i < 64`. -/
def b64Char (i : Nat) : Nat :=
  if i < 26 then 65 + i
  else if i < 52 then 97 + (i - 26)
  else if i < 62 then 48 + (i - 52)
  else if i = 62 then 43
  else 47

/-- Python `base64.b64encode` on a byte list, as character codes,
including `=` padding. -/
def b64encode : List Nat → List Nat
  | [] => []
  | [b1] => [b64Char (b1 / 4), b64Char (b1 % 4 * 16), 61, 61]
  | [b1, b2] =>
    [b64Char (b1 / 4), b64Char (b1 % 4 * 16 + b2 / 16), b64Char (b2 % 16 * 4), 61]
  | b1 :: b2 :: b3 :: rest =>
    b64Char (b1 / 4) :: b64Char (b1 % 4 * 16 + b2 / 16) ::
      b64Char (b2 % 16 * 4 + b3 / 64) :: b64Char (b3 % 64) :: b64encode rest

/-- Index of a character code in the base64 alphabet. -/
def b64Val (c : Nat) : Option Nat :=
  if 65 ≤ c ∧ c ≤ 90 then some (c - 65)
  else if 97 ≤ c ∧ c ≤ 122 then some (c - 97 + 26)
  else if 48 ≤ c ∧ c ≤ 57 then some (c - 48 + 52)
  else if c = 43 then some 62
  else if c = 47 then some 63
  else none

/-- Remove trailing base64 `=` padding characters. -/
def stripB64Pad (l : List Nat) : List Nat :=
  (l.reverse.dropWhile (fun c => c == 61)).reverse

/-- Map every character to its base64 alphabet index, failing on a
character outside the alphabet. -/
def mapB64Vals : List Nat → Option (List Nat)
  | [] => some []
  | c :: rest =>
    match b64Val c, mapB64Vals rest with
    | some v, some vs => some (v :: vs)
    | _, _ => none

/-- Regroup base64 six-bit values into bytes: four values give three
bytes, a final three give two, a final two give one. -/
def b64Regroup : List Nat → List Nat
  | s1 :: s2 :: s3 :: s4 :: rest =>
    (s1 * 4 + s2 / 16) :: (s2 % 16 * 16 + s3 / 4) :: (s3 % 4 * 64 + s4) :: b64Regroup rest
  | [s1, s2, s3] => [s1 * 4 + s2 / 16, s2 % 16 * 16 + s3 / 4]
  | [s1, s2] => [s1 * 4 + s2 / 16]
  | _ => []

/-- Python `base64.b64decode` on well-formed base64 text: strip the
padding, map the characters to six-bit values and regroup them into
bytes. -/
def b64decode (l : List Nat) : Option (List Nat) :=
  (mapB64Vals (stripB64Pad l)).map b64Regroup

/-- Callback invocations a VirtualSerialPort operation makes, in
order: `_on_data_out`, `_on_signal_change` (with the new pair) and
`_on_baud_change`. -/
inductive PortEvent where
  | dataOut (data : List Nat) : PortEvent
  | signalChange (dtr rts : Bool) : PortEvent
  | baudChange (rate : Nat) : PortEvent
deriving DecidableEq

/-- State of a `VirtualSerialPort`: the control signals, the baud rate
and the receive buffer (`__init__` starts at `dtr=False, rts=False,
baudrate=115200` with an empty buffer). -/
structure PortState where
  dtr : Bool
  rts : Bool
  baudrate : Nat
  rxBuffer : List Nat
deriving DecidableEq

/-- Initial `VirtualSerialPort` state. -/
def initPort : PortState := ⟨false, false, 115200, []⟩

/-- Setter of the `dtr` property: update and fire the signal-change
callback with the new `(dtr, rts)` pair only when the value differs. -/
def setDtr (s : PortState) (v : Bool) : PortState × List PortEvent :=
  if s.dtr ≠ v then
    let s2 := {s with dtr := v}
    (s2, [.signalChange s2.dtr s2.rts])
  else (s, [])

/-- Setter of the `rts` property: update and fire the signal-change
callback with the new `(dtr, rts)` pair only when the value differs. -/
def setRts (s : PortState) (v : Bool) : PortState × List PortEvent :=
  if s.rts ≠ v then
    let s2 := {s with rts := v}
    (s2, [.signalChange s2.dtr s2.rts])
  else (s, [])

/-- Setter of the `baudrate` property: update and fire the baud-change
callback with the new rate only when the value differs. -/
def setBaudrate (s : PortState) (v : Nat) : PortState × List PortEvent :=
  if s.baudrate ≠ v then ({s with baudrate := v}, [.baudChange v])
  else (s, [])

/-- The method `VirtualSerialPort.write`: fire the data-out callback
with the data when it is nonempty and return the byte count; the port
state is untouched. -/
def portWrite (s : PortState) (data : List Nat) : PortState × Nat × List PortEvent :=
  if data.isEmpty then (s, data.length, [])
  else (s, data.length, [.dataOut data])

/-- The method `VirtualSerialPort.read`: empty buffer gives empty
bytes, otherwise the first `size` bytes are returned and removed. -/
def portRead (s : PortState) (size : Nat) : List Nat × PortState :=
  if s.rxBuffer.isEmpty then ([], s)
  else (s.rxBuffer.take size, {s with rxBuffer := s.rxBuffer.drop size})

/-- The method `VirtualSerialPort.feed_data`: append received data to
the receive buffer. -/
def feedData (s : PortState) (data : List Nat) : PortState :=
  {s with rxBuffer := s.rxBuffer ++ data}

/-- Relay mode of the bridge: `"connect"` (session relay) or
`"direct"` (direct device). -/
inductive Mode where
  | connectMode : Mode
  | directMode : Mode
deriving DecidableEq

/-- Broadcast events the bridge sends on the channel, with their
payload shapes. -/
inductive Broadcast where
  | shimHello : Broadcast
  | serialInput (data : List Nat) (chunk : Option Nat) : Broadcast
  | command (deviceUuid : List Nat) (ctype : List Nat) (params : Json) : Broadcast
  | signal (dtr rts : Bool) : Broadcast
  | setBaud (rate : Nat) : Broadcast

/-- Bridge fields the callback handlers consult: the mode, the channel
client's `subscribed` flag and the direct-mode device UUID. -/
structure BridgeSt where
  mode : Mode
  subscribed : Bool
  deviceUuid : Option (List Nat)

/-- Python slicing loop `for i in range(0, len(s), k): (s[i:i+k], i // k)`
starting at offset `i`: the chunk list with each chunk's index. -/
def pyChunks (k : Nat) (s : List Nat) (i : Nat) : List (List Nat × Nat) :=
  if h : s = [] ∨ k = 0 then []
  else (s.take k, i / k) :: pyChunks k (s.drop k) (i + k)
termination_by s.length
decreasing_by
  simp only [List.length_drop]
  have h1 : s ≠ [] := (not_or.mp h).1
  have h2 : k ≠ 0 := (not_or.mp h).2
  have h3 : 0 < s.length := List.length_pos.mpr h1
  omega

/-- Parse a trimmed direct-mode input line the way `_on_data_out`
does: split once on whitespace; a lone token is a command with empty
params; a token plus remainder parses the remainder as JSON params,
and on JSON failure the entire line becomes the command name with
empty params. `none` models the unreachable empty split (a raised
IndexError would be caught and logged, broadcasting nothing). -/
def parseCommandLine (text : List Nat) : Option (List Nat × Json) :=
  match pySplit1 text with
  | [tok] => some (tok, Json.obj [])
  | [tok, rest] =>
    match jsonLoads rest with
    | some p => some (tok, p)
    | none => some (text, Json.obj [])
  | _ => none

/-- The bridge data-out handler `_on_data_out`: nothing when not
subscribed; in connect mode base64-encode and chunk when the encoding
exceeds the chunk threshold; in direct mode decode, trim and parse a
command, broadcasting it when a device UUID is set. -/
def onDataOut (br : BridgeSt) (data : List Nat) : List Broadcast :=
  if !br.subscribed then []
  else
    match br.mode with
    | .connectMode =>
      let dataB64 := b64encode data
      if dataB64.length > chunkSize then
        (pyChunks chunkSize dataB64 0).map (fun p => .serialInput p.1 (some p.2))
      else [.serialInput dataB64 none]
    | .directMode =>
      let text := pyStrip (utf8DecodeIgnore data)
      if text.isEmpty then []
      else
        match parseCommandLine text, br.deviceUuid with
        | some np, some u => [.command u np.1 np.2]
        | _, _ => []

/-- The bridge signal-change handler `_on_signal_change`: nothing when
not subscribed; connect mode relays the pair; direct mode treats
`(dtr=false, rts=true)` as a reset start with no action and
`(dtr=false, rts=false)` as reset completion, broadcasting a reboot
command when a device UUID is set. -/
def onSignalChange (br : BridgeSt) (dtr rts : Bool) : List Broadcast :=
  if !br.subscribed then []
  else
    match br.mode with
    | .connectMode => [.signal dtr rts]
    | .directMode =>
      if !dtr && rts then []
      else if !dtr && !rts then
        match br.deviceUuid with
        | some u => [.command u (strCodes "reboot") (Json.obj [])]
        | none => []
      else []

/-- The bridge baud-change handler `_on_baud_change`: nothing when not
subscribed; connect mode broadcasts `set_baud`; direct mode takes no
remote action. -/
def onBaudChange (br : BridgeSt) (rate : Nat) : List Broadcast :=
  if !br.subscribed then []
  else
    match br.mode with
    | .connectMode => [.setBaud rate]
    | .directMode => []

/-- Dispatch one VirtualSerialPort callback invocation to the bridge
handler it is wired to. -/
def handlePortEvent (br : BridgeSt) : PortEvent → List Broadcast
  | .dataOut d => onDataOut br d
  | .signalChange d r => onSignalChange br d r
  | .baudChange r => onBaudChange br r

/-- Concatenation of a list of lists. -/
def concatAll {α : Type} (L : List (List α)) : List α :=
  L.foldr (fun a b => a ++ b) []

/-- Broadcasts produced by a sequence of port callback invocations, in
order. -/
def emitAll (br : BridgeSt) (evs : List PortEvent) : List Broadcast :=
  concatAll (evs.map (handlePortEvent br))

/-- Client-teardown signal sequence of `_handle_client`: after the
writer loop ends, the bridge assigns `dtr = False` and then
`rts = False` on the virtual port. -/
def teardownSignals (s : PortState) : PortState × List PortEvent :=
  let r1 := setDtr s false
  let r2 := setRts r1.1 false
  (r2.1, r1.2 ++ r2.2)

/-- Connection-level state of the `PhoenixClient` that the claims
concern: the two flags and the joined channel topic. -/
structure ClientState where
  connected : Bool
  subscribed : Bool
  channelTopic : List Nat
deriving DecidableEq

/-- Transport-close handling in `_receive_loop`: both flags drop. -/
def onTransportClose (s : ClientState) : ClientState :=
  {s with connected := false, subscribed := false}

/-- Successful `connect()`: only `connected` is set; `subscribed` is
untouched (it only turns true on a join reply). -/
def onConnectSuccess (s : ClientState) : ClientState :=
  {s with connected := true}

/-- Field lookup in a decoded JSON object. -/
def lookupField : List (List Nat × Json) → List Nat → Option Json
  | [], _ => none
  | (k, v) :: rest, key => if k = key then some v else lookupField rest key

/-- Python `dict.get(key)` on a decoded JSON value. -/
def jGet (j : Json) (key : List Nat) : Option Json :=
  match j with
  | .obj fields => lookupField fields key
  | _ => none

/-- The method `_handle_message`: a heartbeat reply is ignored; a
`phx_reply` on the joined topic with payload status `"ok"` sets
`subscribed`, any other status leaves it; a broadcast frame invokes
the handler without touching this state; anything malformed (non-dict
frame or payload) raises inside the receive loop, is caught and
changes nothing. -/
def handleMessage (st : ClientState) (data : Json) : ClientState :=
  match data with
  | .obj _ =>
    let topic := (jGet data (strCodes "topic")).getD (.str [])
    let event := (jGet data (strCodes "event")).getD (.str [])
    let payload := (jGet data (strCodes "payload")).getD (.obj [])
    if jAsStr topic = some (strCodes "phoenix") ∧ jAsStr event = some (strCodes "phx_reply") then
      st
    else if jAsStr event = some (strCodes "phx_reply") ∧ jAsStr topic = some st.channelTopic then
      match payload with
      | .obj _ =>
        let status := (jGet payload (strCodes "status")).getD (.str (strCodes "error"))
        if jAsStr status = some (strCodes "ok") then {st with subscribed := true} else st
      | _ => st
    else st
  | _ => st

/-- Join-reply test used to state when `_handle_message` may set
`subscribed`: a `phx_reply` frame on the joined topic whose payload is
a dict with status `"ok"`. -/
def isOkJoinReply (st : ClientState) (data : Json) : Bool :=
  decide (jAsStr ((jGet data (strCodes "event")).getD (.str [])) = some (strCodes "phx_reply") ∧
    jAsStr ((jGet data (strCodes "topic")).getD (.str [])) = some st.channelTopic ∧
    jAsStr ((jGet ((jGet data (strCodes "payload")).getD (.obj [])) (strCodes "status")).getD
      (.str (strCodes "error"))) = some (strCodes "ok"))

/-- The method `_reconnect`: given the success of each connection
attempt until the loop is left (by success or shutdown), the list of
delays slept; the delay starts at `RECONNECT_DELAY` and after each
failure becomes `min (delay * 2) 60`. -/
def reconnectDelays : Nat → List Bool → List Nat
  | _, [] => []
  | d, ok :: rest => d :: (if ok then [] else reconnectDelays (min (d * 2) 60) rest)

/-- Channel topic computed by `main_async` for connect mode:
`f"realtime:support:{session_id}"`. -/
def connectChannelTopic (sessionId : List Nat) : List Nat :=
  strCodes "realtime:support:" ++ sessionId

/-- Channel topic computed by `main_async` for direct mode:
`f"realtime:user:{user_uuid}"` (the owner UUID resolved from the
device lookup). -/
def directChannelTopic (userUuid : List Nat) : List Nat :=
  strCodes "realtime:user:" ++ userUuid

/-- Telnet-level command units the RFC 2217 filter extracts from the
wire stream. -/
inductive TelnetEvt where
  | negot (cmd opt : Nat) : TelnetEvt
  | subn (data : List Nat) : TelnetEvt
  | unknownCmd (c : Nat) : TelnetEvt
deriving DecidableEq

/-- Modes of the RFC 2217 filter state machine (`M_NORMAL`,
`M_IAC_SEEN`, `M_NEGOTIATE`). -/
inductive FMode where
  | normal : FMode
  | iacSeen : FMode
  | negotiate : FMode
deriving DecidableEq

/-- State of the RFC 2217 filter: the mode, the pending negotiation
command and the suboption buffer when one is being collected. -/
structure FilterSt where
  mode : FMode
  tcmd : Nat
  subBuf : Option (List Nat)
deriving DecidableEq

/-- Initial RFC 2217 filter state. -/
def initFilter : FilterSt := ⟨.normal, 0, none⟩

/-- Modelled from the spec: `escape(rawBytes)` of the
SerialProtocolCodec (the `serial.rfc2217.PortManager.escape` of the
external pyserial dependency, not part of this repository) doubles
every IAC (0xFF) byte so raw data can travel beside protocol
commands. -/
def rfc2217Escape : List Nat → List Nat
  | [] => []
  | b :: rest =>
    if b = 255 then 255 :: 255 :: rfc2217Escape rest
    else b :: rfc2217Escape rest

/-- Modelled from the spec: `filter(wireBytes)` of the
SerialProtocolCodec (pyserial `serial.rfc2217.PortManager.filter`),
a Telnet state machine: a doubled IAC is one literal data byte,
`IAC WILL/WONT/DO/DONT opt` and `IAC SB ... IAC SE` sequences are
stripped out as control commands, everything else is raw payload. -/
def rfc2217FilterGo : FilterSt → List Nat → List Nat × List TelnetEvt
  | _, [] => ([], [])
  | st, b :: rest =>
    match st.mode with
    | .normal =>
      if b = 255 then rfc2217FilterGo {st with mode := .iacSeen} rest
      else
        match st.subBuf with
        | some buf => rfc2217FilterGo {st with subBuf := some (buf ++ [b])} rest
        | none =>
          let r := rfc2217FilterGo st rest
          (b :: r.1, r.2)
    | .iacSeen =>
      if b = 255 then
        match st.subBuf with
        | some buf =>
          rfc2217FilterGo {st with mode := .normal, subBuf := some (buf ++ [255])} rest
        | none =>
          let r := rfc2217FilterGo {st with mode := .normal} rest
          (255 :: r.1, r.2)
      else if b = 250 then
        rfc2217FilterGo {st with mode := .normal, subBuf := some []} rest
      else if b = 240 then
        let r := rfc2217FilterGo {st with mode := .normal, subBuf := none} rest
        (r.1, .subn (st.subBuf.getD []) :: r.2)
      else if b = 251 ∨ b = 252 ∨ b = 253 ∨ b = 254 then
        rfc2217FilterGo {st with mode := .negotiate, tcmd := b} rest
      else
        let r := rfc2217FilterGo {st with mode := .normal} rest
        (r.1, .unknownCmd b :: r.2)
    | .negotiate =>
      let r := rfc2217FilterGo {st with mode := .normal} rest
      (r.1, .negot st.tcmd b :: r.2)

/-- RFC 2217 filter run from the initial state. -/
def rfc2217Filter (l : List Nat) : List Nat × List TelnetEvt :=
  rfc2217FilterGo initFilter l

/-- Data field of a `serial_input` broadcast. -/
def dataOf : Broadcast → List Nat
  | .serialInput d _ => d
  | _ => []

/-- Chunk field of a `serial_input` broadcast. -/
def chunkOf : Broadcast → Option Nat
  | .serialInput _ c => c
  | _ => none

/-- Test for a `serial_input` broadcast. -/
def isSerialInput : Broadcast → Bool
  | .serialInput _ _ => true
  | _ => false

/-! Helper lemmas. -/

theorem b64Val_b64Char : ∀ i < 64, b64Val (b64Char i) = some i := by decide

theorem b64Char_ne61 (i : Nat) : b64Char i ≠ 61 := by
  unfold b64Char
  split_ifs <;> omega

theorem dropWhile_eq_self_of {p : Nat → Bool} {l : List Nat}
    (h : ∀ c ∈ l, p c = false) : l.dropWhile p = l := by
  cases l with
  | nil => rfl
  | cons a t => simp [List.dropWhile_cons, h a (by simp)]

theorem stripB64Pad_append (xs ys : List Nat) (hx : ∀ c ∈ xs, (c == 61) = false) :
    stripB64Pad (xs ++ ys) = xs ++ stripB64Pad ys := by
  unfold stripB64Pad
  rw [List.reverse_append, List.dropWhile_append]
  split
  · rw [dropWhile_eq_self_of (by intro c hc; exact hx c (by simpa using hc))]
    next hemp =>
      simp only [List.isEmpty_iff] at hemp
      simp [hemp]
  · simp

theorem mapB64Vals_append (xs ys vs : List Nat) (h : mapB64Vals xs = some vs) :
    mapB64Vals (xs ++ ys) = (mapB64Vals ys).map (fun ws => vs ++ ws) := by
  induction xs generalizing vs with
  | nil =>
    simp only [mapB64Vals] at h
    cases h
    cases hys : mapB64Vals ys <;> simp [hys]
  | cons a t ih =>
    cases hb : b64Val a with
    | none => simp [mapB64Vals, hb] at h
    | some v =>
      cases ht : mapB64Vals t with
      | none => simp [mapB64Vals, hb, ht] at h
      | some vt =>
        simp only [mapB64Vals, hb, ht] at h
        cases h
        have := ih vt ht
        cases hys : mapB64Vals ys <;>
          simp_all [mapB64Vals, hb]

theorem b64_roundtrip : ∀ (l : List Nat), (∀ b ∈ l, b < 256) → b64decode (b64encode l) = some l
  | [], _ => by decide
  | [b1], h => by
    have hb1 : b1 < 256 := h b1 (by simp)
    have e1 : b64Val (b64Char (b1 / 4)) = some (b1 / 4) := b64Val_b64Char _ (by omega)
    have e2 : b64Val (b64Char (b1 % 4 * 16)) = some (b1 % 4 * 16) := b64Val_b64Char _ (by omega)
    have n1 : (b64Char (b1 / 4) == 61) = false := by simpa using b64Char_ne61 (b1 / 4)
    have n2 : (b64Char (b1 % 4 * 16) == 61) = false := by simpa using b64Char_ne61 (b1 % 4 * 16)
    simp [b64encode, b64decode, stripB64Pad, List.dropWhile_cons, n1, n2,
      mapB64Vals, e1, e2, b64Regroup]
    omega
  | [b1, b2], h => by
    have hb1 : b1 < 256 := h b1 (by simp)
    have hb2 : b2 < 256 := h b2 (by simp)
    have e1 : b64Val (b64Char (b1 / 4)) = some (b1 / 4) := b64Val_b64Char _ (by omega)
    have e2 : b64Val (b64Char (b1 % 4 * 16 + b2 / 16)) = some (b1 % 4 * 16 + b2 / 16) :=
      b64Val_b64Char _ (by omega)
    have e3 : b64Val (b64Char (b2 % 16 * 4)) = some (b2 % 16 * 4) := b64Val_b64Char _ (by omega)
    have n1 : (b64Char (b1 / 4) == 61) = false := by simpa using b64Char_ne61 _
    have n2 : (b64Char (b1 % 4 * 16 + b2 / 16) == 61) = false := by simpa using b64Char_ne61 _
    have n3 : (b64Char (b2 % 16 * 4) == 61) = false := by simpa using b64Char_ne61 _
    simp [b64encode, b64decode, stripB64Pad, List.dropWhile_cons, n1, n2, n3,
      mapB64Vals, e1, e2, e3, b64Regroup]
    constructor
    · omega
    · omega
  | b1 :: b2 :: b3 :: rest, h => by
    have hb1 : b1 < 256 := h b1 (by simp)
    have hb2 : b2 < 256 := h b2 (by simp)
    have hb3 : b3 < 256 := h b3 (by simp)
    have ih := b64_roundtrip rest (fun b hb => h b (by simp [hb]))
    have e1 : b64Val (b64Char (b1 / 4)) = some (b1 / 4) := b64Val_b64Char _ (by omega)
    have e2 : b64Val (b64Char (b1 % 4 * 16 + b2 / 16)) = some (b1 % 4 * 16 + b2 / 16) :=
      b64Val_b64Char _ (by omega)
    have e3 : b64Val (b64Char (b2 % 16 * 4 + b3 / 64)) = some (b2 % 16 * 4 + b3 / 64) :=
      b64Val_b64Char _ (by omega)
    have e4 : b64Val (b64Char (b3 % 64)) = some (b3 % 64) := b64Val_b64Char _ (by omega)
    have henc : b64encode (b1 :: b2 :: b3 :: rest) =
        [b64Char (b1 / 4), b64Char (b1 % 4 * 16 + b2 / 16),
          b64Char (b2 % 16 * 4 + b3 / 64), b64Char (b3 % 64)] ++ b64encode rest := by
      simp [b64encode]
    have hstrip : stripB64Pad (b64encode (b1 :: b2 :: b3 :: rest)) =
        [b64Char (b1 / 4), b64Char (b1 % 4 * 16 + b2 / 16),
          b64Char (b2 % 16 * 4 + b3 / 64), b64Char (b3 % 64)] ++
          stripB64Pad (b64encode rest) := by
      rw [henc, stripB64Pad_append]
      intro c hc
      simp only [List.mem_cons, List.not_mem_nil, or_false] at hc
      rcases hc with hc | hc | hc | hc <;> (subst hc; simpa using b64Char_ne61 _)
    cases hm : mapB64Vals (stripB64Pad (b64encode rest)) with
    | none => simp [b64decode, hm] at ih
    | some vs =>
      simp only [b64decode, hm, Option.map_some] at ih
      have hregroup : b64Regroup vs = rest := by simpa using ih
      have hquad : mapB64Vals [b64Char (b1 / 4), b64Char (b1 % 4 * 16 + b2 / 16),
          b64Char (b2 % 16 * 4 + b3 / 64), b64Char (b3 % 64)] =
          some [b1 / 4, b1 % 4 * 16 + b2 / 16, b2 % 16 * 4 + b3 / 64, b3 % 64] := by
        simp [mapB64Vals, e1, e2, e3, e4]
      rw [b64decode, hstrip, mapB64Vals_append _ _ _ hquad, hm]
      have hre : b64Regroup (b1 / 4 :: (b1 % 4 * 16 + b2 / 16) ::
          (b2 % 16 * 4 + b3 / 64) :: b3 % 64 :: vs) =
          (b1 / 4 * 4 + (b1 % 4 * 16 + b2 / 16) / 16) ::
            ((b1 % 4 * 16 + b2 / 16) % 16 * 16 + (b2 % 16 * 4 + b3 / 64) / 4) ::
            ((b2 % 16 * 4 + b3 / 64) % 4 * 64 + b3 % 64) :: b64Regroup vs := rfl
      show some (b64Regroup (b1 / 4 :: (b1 % 4 * 16 + b2 / 16) ::
        (b2 % 16 * 4 + b3 / 64) :: b3 % 64 :: vs)) = some (b1 :: b2 :: b3 :: rest)
      rw [hre, hregroup]
      simp only [Option.some.injEq, List.cons.injEq]
      refine ⟨by omega, by omega, by omega, trivial⟩

theorem pyChunks_join (k : Nat) (hk : k ≠ 0) (s : List Nat) (i : Nat) :
    concatAll ((pyChunks k s i).map Prod.fst) = s := by
  rw [pyChunks]
  split
  next h =>
    rcases h with h | h
    · simp [h, concatAll]
    · exact absurd h hk
  next h =>
    have ih := pyChunks_join k hk (s.drop k) (i + k)
    simp only [List.map_cons, concatAll, List.foldr_cons]
    simp only [concatAll] at ih
    rw [ih]
    exact List.take_append_drop k s
termination_by s.length
decreasing_by
  have hno : ¬(s = [] ∨ k = 0) := by assumption
  simp only [List.length_drop]
  have h2 := (not_or.mp hno).1
  have h3 := (not_or.mp hno).2
  have h4 : 0 < s.length := List.length_pos.mpr h2
  omega

theorem pyChunks_snd (k : Nat) (hk : k ≠ 0) (s : List Nat) (r : Nat) :
    (pyChunks k s (r * k)).map Prod.snd =
      List.range' r ((pyChunks k s (r * k)).length) := by
  rw [pyChunks]
  split
  · simp
  next h =>
    simp only [List.map_cons, List.length_cons, List.range'_succ]
    congr 1
    · exact Nat.mul_div_cancel r (Nat.pos_of_ne_zero hk)
    · have hrk : r * k + k = (r + 1) * k := by ring
      rw [hrk]
      exact pyChunks_snd k hk (s.drop k) (r + 1)
termination_by s.length
decreasing_by
  have hno : ¬(s = [] ∨ k = 0) := by assumption
  simp only [List.length_drop]
  have h2 := (not_or.mp hno).1
  have h3 := (not_or.mp hno).2
  have h4 : 0 < s.length := List.length_pos.mpr h2
  omega

theorem reconnectDelays_formula : ∀ (n k : Nat),
    reconnectDelays (min (5 * 2 ^ k) 60) (List.replicate n false ++ [true]) =
      (List.range' k (n + 1)).map (fun i => min (5 * 2 ^ i) 60) := by
  intro n
  induction n with
  | zero =>
    intro k
    simp [reconnectDelays, List.range'_one]
  | succ m ih =>
    intro k
    have hstep : reconnectDelays (min (5 * 2 ^ k) 60)
        (List.replicate (m + 1) false ++ [true]) =
        min (5 * 2 ^ k) 60 ::
          reconnectDelays (min (min (5 * 2 ^ k) 60 * 2) 60) (List.replicate m false ++ [true]) := by
      simp [List.replicate_succ, reconnectDelays]
    have h2 : min (min (5 * 2 ^ k) 60 * 2) 60 = min (5 * 2 ^ (k + 1)) 60 := by
      rw [pow_succ]
      omega
    rw [hstep, h2, ih (k + 1)]
    conv_rhs => rw [List.range'_succ]
    rw [List.map_cons]

theorem rfc2217_roundtrip_aux : ∀ (b : List Nat),
    rfc2217FilterGo initFilter (rfc2217Escape b) = (b, [])
  | [] => rfl
  | x :: rest => by
    have ih := rfc2217_roundtrip_aux rest
    simp only [initFilter] at ih
    by_cases hx : x = 255
    · subst hx
      simp [rfc2217Escape, rfc2217FilterGo, initFilter, ih]
    · simp [rfc2217Escape, rfc2217FilterGo, initFilter, hx, ih]

/-! Claim theorems. -/

/-- C4: for every VirtualSerialPort state, assigning `dtr`, `rts` or
`baudrate` its current value changes nothing and fires no callback;
assigning a different value stores it and fires the matching change
callback exactly once — the signal-change callback with the new
`(dtr, rts)` pair, the baud-change callback with the new rate. -/
theorem claim_C4 (s : PortState) (v w : Bool) (r : Nat) :
    setDtr s s.dtr = (s, []) ∧
    (v ≠ s.dtr → setDtr s v = ({s with dtr := v}, [PortEvent.signalChange v s.rts])) ∧
    setRts s s.rts = (s, []) ∧
    (w ≠ s.rts → setRts s w = ({s with rts := w}, [PortEvent.signalChange s.dtr w])) ∧
    setBaudrate s s.baudrate = (s, []) ∧
    (r ≠ s.baudrate → setBaudrate s r = ({s with baudrate := r}, [PortEvent.baudChange r])) := by
  refine ⟨?_, ?_, ?_, ?_, ?_, ?_⟩
  · simp [setDtr]
  · intro h
    simp [setDtr, Ne.symm h]
  · simp [setRts]
  · intro h
    simp [setRts, Ne.symm h]
  · simp [setBaudrate]
  · intro h
    simp [setBaudrate, Ne.symm h]

/-- C6: `read(maxBytes)` returns the first `min maxBytes (buffer
length)` bytes of the receive buffer, removes exactly those from the
front leaving the remainder in order, returns empty on an empty buffer
leaving it empty, and touches no other port state; it is a total
function (never blocks, never fails). -/
theorem claim_C6 (s : PortState) (n : Nat) :
    (portRead s n).1 = s.rxBuffer.take n ∧
    (portRead s n).1.length = min n s.rxBuffer.length ∧
    (portRead s n).1 ++ (portRead s n).2.rxBuffer = s.rxBuffer ∧
    (portRead s n).2.dtr = s.dtr ∧
    (portRead s n).2.rts = s.rts ∧
    (portRead s n).2.baudrate = s.baudrate ∧
    (s.rxBuffer = [] → portRead s n = ([], s)) := by
  unfold portRead
  by_cases hb : s.rxBuffer.isEmpty
  · have he : s.rxBuffer = [] := List.isEmpty_iff.mp hb
    simp [hb, he]
  · have he : ¬ s.rxBuffer = [] := fun h => hb (List.isEmpty_iff.mpr h)
    simp [hb, List.take_append_drop, List.length_take, he]

/-- C7 as stated is false at the empty byte sequence: `write(b"")`
fires no data-out callback (the code guards `if data:`), while the
claim requires an invocation with exactly those bytes. -/
theorem claim_C7_cex :
    ¬ (portWrite initPort [] = (initPort, 0, [PortEvent.dataOut []])) := by
  decide

/-- C7 amended: for every nonempty byte sequence, `write` invokes the
data-out callback exactly once with exactly those bytes; for the empty
sequence it invokes no callback; in every case it leaves the port
state (receive buffer included) unchanged and returns the byte
count. -/
theorem claim_C7 (s : PortState) (data : List Nat) :
    (portWrite s data).1 = s ∧
    (portWrite s data).2.1 = data.length ∧
    (data ≠ [] → (portWrite s data).2.2 = [PortEvent.dataOut data]) ∧
    (data = [] → (portWrite s data).2.2 = []) := by
  unfold portWrite
  by_cases hd : data.isEmpty
  · have he : data = [] := List.isEmpty_iff.mp hd
    simp [hd, he]
  · have he : ¬ data = [] := fun h => hd (List.isEmpty_iff.mpr h)
    simp [hd, he]

/-- C8 as stated is false: the code joins `realtime:support:<id>` and
`realtime:user:<uuid>`, not `topic:support:<id>` / `topic:user:<uuid>`;
shown false at session id `"abc"` and owner UUID `"u1"`. -/
theorem claim_C8_cex :
    ¬ (connectChannelTopic (strCodes "abc") = strCodes "topic:support:" ++ strCodes "abc" ∧
       directChannelTopic (strCodes "u1") = strCodes "topic:user:" ++ strCodes "u1") := by
  decide

/-- C8 amended: the channel topic is `"realtime:support:"` followed by
the session identifier in session-relay mode, and `"realtime:user:"`
followed by the resolved owner UUID in direct-device mode. -/
theorem claim_C8 (sid uid : List Nat) :
    connectChannelTopic sid = strCodes "realtime:support:" ++ sid ∧
    directChannelTopic uid = strCodes "realtime:user:" ++ uid :=
  ⟨rfl, rfl⟩

/-- C9: escaping any raw byte sequence and filtering it back from the
initial codec state returns exactly the original bytes with no control
commands extracted (round-trip of raw payload through the wire
codec). -/
theorem claim_C9 (b : List Nat) : rfc2217Filter (rfc2217Escape b) = (b, []) :=
  rfc2217_roundtrip_aux b

/-- C3: in direct-device mode (subscribed, device UUID set), starting
from `(dtr=true, rts=true)`, the transition to `(dtr=false, rts=true)`
fires the signal-change handler once and broadcasts nothing, and the
following transition to `(dtr=false, rts=false)` fires it once and
broadcasts exactly one reboot command — one reboot in total, on the
final transition only. -/
theorem claim_C3 (u : List Nat) :
    setDtr ⟨true, true, 115200, []⟩ false =
      (⟨false, true, 115200, []⟩, [PortEvent.signalChange false true]) ∧
    emitAll ⟨Mode.directMode, true, some u⟩ [PortEvent.signalChange false true] = [] ∧
    setRts ⟨false, true, 115200, []⟩ false =
      (⟨false, false, 115200, []⟩, [PortEvent.signalChange false false]) ∧
    emitAll ⟨Mode.directMode, true, some u⟩ [PortEvent.signalChange false false] =
      [Broadcast.command u (strCodes "reboot") (Json.obj [])] :=
  ⟨rfl, rfl, rfl, rfl⟩

/-- C10: in direct-device mode with the channel subscribed, the device
UUID set and both signals asserted, the client-teardown path (assign
`dtr=false`, then `rts=false`) drives the signal-change handler
through `(false, true)` and `(false, false)` and broadcasts exactly
one reboot command. -/
theorem claim_C10 (u : List Nat) (s : PortState) (hd : s.dtr = true) (hr : s.rts = true) :
    (teardownSignals s).2 =
      [PortEvent.signalChange false true, PortEvent.signalChange false false] ∧
    emitAll ⟨Mode.directMode, true, some u⟩ (teardownSignals s).2 =
      [Broadcast.command u (strCodes "reboot") (Json.obj [])] := by
  obtain ⟨d, r, rate, buf⟩ := s
  simp only at hd hr
  subst hd
  subst hr
  exact ⟨rfl, rfl⟩

/-- C10 witness at a concrete port state and UUID. -/
theorem claim_C10_witness :
    (teardownSignals ⟨true, true, 115200, []⟩).2 =
      [PortEvent.signalChange false true, PortEvent.signalChange false false] ∧
    emitAll ⟨Mode.directMode, true, some (strCodes "dev")⟩
      (teardownSignals ⟨true, true, 115200, []⟩).2 =
      [Broadcast.command (strCodes "dev") (strCodes "reboot") (Json.obj [])] :=
  claim_C10 (strCodes "dev") ⟨true, true, 115200, []⟩ rfl rfl

/-- C5: a transport close clears `connected` and `subscribed`; a later
successful connect alone leaves `subscribed` false; the reconnect loop
sleeps 5s before the first attempt and doubles after each failure up
to a 60s cap until the first success; and `_handle_message` turns
`subscribed` on only for a `phx_reply` on the joined topic with status
`"ok"` (and does turn it on for such a reply when the topic is not the
reserved `"phoenix"` control topic). -/
theorem claim_C5 (s : ClientState) (data : Json) (n : Nat) (outcomes : List Bool)
    (hout : outcomes = List.replicate n false ++ [true]) :
    (onTransportClose s).connected = false ∧
    (onTransportClose s).subscribed = false ∧
    (onConnectSuccess (onTransportClose s)).subscribed = false ∧
    reconnectDelays RECONNECT_DELAY outcomes =
      (List.range (n + 1)).map (fun i => min (RECONNECT_DELAY * 2 ^ i) 60) ∧
    ((handleMessage s data).subscribed = true → s.subscribed = true ∨ isOkJoinReply s data = true) ∧
    (jAsStr ((jGet data (strCodes "topic")).getD (.str [])) ≠ some (strCodes "phoenix") →
      isOkJoinReply s data = true → (handleMessage s data).subscribed = true) := by
  refine ⟨rfl, rfl, rfl, ?_, ?_, ?_⟩
  · have h5 : RECONNECT_DELAY = min (5 * 2 ^ 0) 60 := by decide
    rw [hout, h5, reconnectDelays_formula n 0, List.range_eq_range']
    simp [RECONNECT_DELAY]
  · intro hs
    by_cases hok : isOkJoinReply s data = true
    · exact Or.inr hok
    · left
      cases data with
      | obj fields =>
        simp only [handleMessage] at hs
        by_cases h1 : jAsStr ((jGet (Json.obj fields) (strCodes "topic")).getD (.str [])) =
            some (strCodes "phoenix") ∧
            jAsStr ((jGet (Json.obj fields) (strCodes "event")).getD (.str [])) =
            some (strCodes "phx_reply")
        · rw [if_pos h1] at hs
          exact hs
        · rw [if_neg h1] at hs
          by_cases h2 : jAsStr ((jGet (Json.obj fields) (strCodes "event")).getD (.str [])) =
              some (strCodes "phx_reply") ∧
              jAsStr ((jGet (Json.obj fields) (strCodes "topic")).getD (.str [])) =
              some s.channelTopic
          · rw [if_pos h2] at hs
            cases hp : (jGet (Json.obj fields) (strCodes "payload")).getD (.obj []) with
            | obj pfields =>
              rw [hp] at hs
              by_cases h3 : jAsStr ((jGet (Json.obj pfields) (strCodes "status")).getD
                  (.str (strCodes "error"))) = some (strCodes "ok")
              · exfalso
                apply hok
                simp only [isOkJoinReply, decide_eq_true_eq]
                exact ⟨h2.1, h2.2, by rw [hp]; exact h3⟩
              · rw [if_neg h3] at hs
                exact hs
            | null => rw [hp] at hs; exact hs
            | bool b => rw [hp] at hs; exact hs
            | num q => rw [hp] at hs; exact hs
            | str t => rw [hp] at hs; exact hs
            | arr l => rw [hp] at hs; exact hs
          · rw [if_neg h2] at hs
            exact hs
      | null => exact hs
      | bool b => exact hs
      | num q => exact hs
      | str t => exact hs
      | arr l => exact hs
  · intro hne hok
    simp only [isOkJoinReply, decide_eq_true_eq] at hok
    obtain ⟨he, ht, hst⟩ := hok
    cases data with
    | obj fields =>
      simp only [handleMessage]
      rw [if_neg (fun hc => hne hc.1)]
      rw [if_pos ⟨he, ht⟩]
      cases hp : (jGet (Json.obj fields) (strCodes "payload")).getD (.obj []) with
      | obj pfields =>
        rw [hp] at hst
        rw [if_pos hst]
      | null =>
        rw [hp] at hst
        simp only [jGet, jAsStr, Option.getD] at hst
        exact absurd hst (by decide)
      | bool b =>
        rw [hp] at hst
        simp only [jGet, jAsStr, Option.getD] at hst
        exact absurd hst (by decide)
      | num q =>
        rw [hp] at hst
        simp only [jGet, jAsStr, Option.getD] at hst
        exact absurd hst (by decide)
      | str t =>
        rw [hp] at hst
        simp only [jGet, jAsStr, Option.getD] at hst
        exact absurd hst (by decide)
      | arr l =>
        rw [hp] at hst
        simp only [jGet, jAsStr, Option.getD] at hst
        exact absurd hst (by decide)
    | null =>
      simp only [jGet, jAsStr, Option.getD] at he
      exact absurd he (by decide)
    | bool b =>
      simp only [jGet, jAsStr, Option.getD] at he
      exact absurd he (by decide)
    | num q =>
      simp only [jGet, jAsStr, Option.getD] at he
      exact absurd he (by decide)
    | str t =>
      simp only [jGet, jAsStr, Option.getD] at he
      exact absurd he (by decide)
    | arr l =>
      simp only [jGet, jAsStr, Option.getD] at he
      exact absurd he (by decide)

/-- C5 witness: a concrete close-reconnect run with two failures and a
concrete successful join reply. -/
theorem claim_C5_witness :
    (onTransportClose ⟨true, true, strCodes "realtime:support:abc"⟩).connected = false ∧
    (onTransportClose ⟨true, true, strCodes "realtime:support:abc"⟩).subscribed = false ∧
    (onConnectSuccess (onTransportClose ⟨true, true, strCodes "realtime:support:abc"⟩)).subscribed
      = false ∧
    reconnectDelays RECONNECT_DELAY [false, false, true] =
      (List.range (2 + 1)).map (fun i => min (RECONNECT_DELAY * 2 ^ i) 60) ∧
    ((handleMessage ⟨true, false, strCodes "realtime:support:abc"⟩
        (Json.obj [(strCodes "topic", .str (strCodes "realtime:support:abc")),
          (strCodes "event", .str (strCodes "phx_reply")),
          (strCodes "payload", .obj [(strCodes "status", .str (strCodes "ok"))])])).subscribed
        = true →
      (⟨true, false, strCodes "realtime:support:abc"⟩ : ClientState).subscribed = true ∨
      isOkJoinReply ⟨true, false, strCodes "realtime:support:abc"⟩
        (Json.obj [(strCodes "topic", .str (strCodes "realtime:support:abc")),
          (strCodes "event", .str (strCodes "phx_reply")),
          (strCodes "payload", .obj [(strCodes "status", .str (strCodes "ok"))])]) = true) ∧
    (jAsStr ((jGet (Json.obj [(strCodes "topic", .str (strCodes "realtime:support:abc")),
          (strCodes "event", .str (strCodes "phx_reply")),
          (strCodes "payload", .obj [(strCodes "status", .str (strCodes "ok"))])])
        (strCodes "topic")).getD (.str [])) ≠ some (strCodes "phoenix") →
      isOkJoinReply ⟨true, false, strCodes "realtime:support:abc"⟩
        (Json.obj [(strCodes "topic", .str (strCodes "realtime:support:abc")),
          (strCodes "event", .str (strCodes "phx_reply")),
          (strCodes "payload", .obj [(strCodes "status", .str (strCodes "ok"))])]) = true →
      (handleMessage ⟨true, false, strCodes "realtime:support:abc"⟩
        (Json.obj [(strCodes "topic", .str (strCodes "realtime:support:abc")),
          (strCodes "event", .str (strCodes "phx_reply")),
          (strCodes "payload", .obj [(strCodes "status", .str (strCodes "ok"))])])).subscribed
        = true) :=
  claim_C5 ⟨true, false, strCodes "realtime:support:abc"⟩
    (Json.obj [(strCodes "topic", .str (strCodes "realtime:support:abc")),
      (strCodes "event", .str (strCodes "phx_reply")),
      (strCodes "payload", .obj [(strCodes "status", .str (strCodes "ok"))])])
    2 [false, false, true] rfl

/-- C1: in session-relay mode with the channel subscribed, the
data-out handler base64-encodes the bytes; when the encoding does not
exceed the chunk threshold it broadcasts exactly one `serial_input`
event carrying the whole encoding and no chunk field; when it does,
every broadcast is a `serial_input` event, the chunk fields are the
consecutive indices 0, 1, 2, ... and the concatenation of the data
fields base64-decodes to exactly the original bytes. When the channel
is not subscribed nothing is broadcast. -/
theorem claim_C1 (du : Option (List Nat)) (data : List Nat) (hb : ∀ b ∈ data, b < 256) :
    onDataOut ⟨Mode.connectMode, false, du⟩ data = [] ∧
    (¬ (b64encode data).length > chunkSize →
      onDataOut ⟨Mode.connectMode, true, du⟩ data =
        [Broadcast.serialInput (b64encode data) none]) ∧
    ((b64encode data).length > chunkSize →
      (∀ e ∈ onDataOut ⟨Mode.connectMode, true, du⟩ data, isSerialInput e = true) ∧
      (onDataOut ⟨Mode.connectMode, true, du⟩ data).map chunkOf =
        (List.range (onDataOut ⟨Mode.connectMode, true, du⟩ data).length).map some ∧
      b64decode (concatAll ((onDataOut ⟨Mode.connectMode, true, du⟩ data).map dataOf)) =
        some data) := by
  refine ⟨rfl, ?_, ?_⟩
  · intro hle
    show (if (b64encode data).length > chunkSize then
        (pyChunks chunkSize (b64encode data) 0).map
          (fun p => Broadcast.serialInput p.1 (some p.2))
      else [Broadcast.serialInput (b64encode data) none]) =
      [Broadcast.serialInput (b64encode data) none]
    rw [if_neg hle]
  · intro hgt
    have hev : onDataOut ⟨Mode.connectMode, true, du⟩ data =
        (pyChunks chunkSize (b64encode data) 0).map
          (fun p => Broadcast.serialInput p.1 (some p.2)) := by
      show (if (b64encode data).length > chunkSize then
          (pyChunks chunkSize (b64encode data) 0).map
            (fun p => Broadcast.serialInput p.1 (some p.2))
        else [Broadcast.serialInput (b64encode data) none]) = _
      rw [if_pos hgt]
    refine ⟨?_, ?_, ?_⟩
    · intro e he
      rw [hev] at he
      obtain ⟨p, hp, rfl⟩ := List.mem_map.mp he
      rfl
    · rw [hev, List.map_map, List.length_map]
      have hcomp : (chunkOf ∘ fun p : List Nat × Nat => Broadcast.serialInput p.1 (some p.2)) =
          fun p : List Nat × Nat => some p.2 := rfl
      rw [hcomp]
      have hs := pyChunks_snd chunkSize (by decide) (b64encode data) 0
      rw [Nat.zero_mul] at hs
      have hsome : (fun p : List Nat × Nat => some p.2) = some ∘ Prod.snd := rfl
      rw [hsome, ← List.map_map, hs, List.range_eq_range']
    · rw [hev, List.map_map]
      have hcomp : (dataOf ∘ fun p : List Nat × Nat => Broadcast.serialInput p.1 (some p.2)) =
          Prod.fst := rfl
      rw [hcomp, pyChunks_join chunkSize (by decide) (b64encode data) 0]
      exact b64_roundtrip data hb

/-- C1 witness at concrete bytes `"Hi"` (short branch: one event, the
whole encoding, no chunk field). -/
theorem claim_C1_witness :
    onDataOut ⟨Mode.connectMode, true, none⟩ [72, 105] =
      [Broadcast.serialInput (b64encode [72, 105]) none] :=
  (claim_C1 none [72, 105] (by decide)).2.1 (by decide)

/-- Unfolding of the direct-mode data-out handler with the channel
subscribed and a device UUID set. -/
theorem onDataOut_direct (u : List Nat) (data : List Nat) :
    onDataOut ⟨Mode.directMode, true, some u⟩ data =
      (if (pyStrip (utf8DecodeIgnore data)).isEmpty then []
       else
         match parseCommandLine (pyStrip (utf8DecodeIgnore data)) with
         | some np => [Broadcast.command u np.1 np.2]
         | none => []) := by
  by_cases he : (pyStrip (utf8DecodeIgnore data)).isEmpty
  · simp [onDataOut, he]
  · cases hp : parseCommandLine (pyStrip (utf8DecodeIgnore data)) with
    | none => simp [onDataOut, he, hp]
    | some np => simp [onDataOut, he, hp]

/-- C2: in direct-device mode (subscribed, device UUID set) the
data-out handler decodes the bytes as UTF-8, trims them, and: empty
text broadcasts nothing; otherwise the text splits on the first
whitespace run into a command name and optional remainder, the
remainder parses as JSON params, JSON failure degrades the entire
trimmed line to the command name with empty params, and the handler is
a total function (never raises). In particular
`"set_brightness {\"level\": 50}"`, `"reboot"` and
`"bad_json {not valid}"` give the three commands the claim lists. -/
theorem claim_C2 (u : List Nat) :
    (∀ data : List Nat, pyStrip (utf8DecodeIgnore data) = [] →
      onDataOut ⟨Mode.directMode, true, some u⟩ data = []) ∧
    (∀ data name params,
      parseCommandLine (pyStrip (utf8DecodeIgnore data)) = some (name, params) →
      onDataOut ⟨Mode.directMode, true, some u⟩ data = [Broadcast.command u name params]) ∧
    (∀ text tok, pySplit1 text = [tok] → parseCommandLine text = some (tok, Json.obj [])) ∧
    (∀ text tok rest p, pySplit1 text = [tok, rest] → jsonLoads rest = some p →
      parseCommandLine text = some (tok, p)) ∧
    (∀ text tok rest, pySplit1 text = [tok, rest] → jsonLoads rest = none →
      parseCommandLine text = some (text, Json.obj [])) ∧
    onDataOut ⟨Mode.directMode, true, some u⟩ (strCodes "set_brightness \x7b\"level\": 50\x7d") =
      [Broadcast.command u (strCodes "set_brightness")
        (Json.obj [(strCodes "level", Json.num 50)])] ∧
    onDataOut ⟨Mode.directMode, true, some u⟩ (strCodes "reboot") =
      [Broadcast.command u (strCodes "reboot") (Json.obj [])] ∧
    onDataOut ⟨Mode.directMode, true, some u⟩ (strCodes "bad_json \x7bnot valid\x7d") =
      [Broadcast.command u (strCodes "bad_json \x7bnot valid\x7d") (Json.obj [])] := by
  have h2 : ∀ data name params,
      parseCommandLine (pyStrip (utf8DecodeIgnore data)) = some (name, params) →
      onDataOut ⟨Mode.directMode, true, some u⟩ data = [Broadcast.command u name params] := by
    intro data name params hp
    rw [onDataOut_direct]
    have hne : ¬ (pyStrip (utf8DecodeIgnore data)).isEmpty = true := by
      intro he
      rw [List.isEmpty_iff.mp he] at hp
      rw [show parseCommandLine [] = none from rfl] at hp
      exact Option.noConfusion hp
    rw [if_neg hne, hp]
  refine ⟨?_, h2, ?_, ?_, ?_, ?_, ?_, ?_⟩
  · intro data h
    rw [onDataOut_direct, if_pos (List.isEmpty_iff.mpr h)]
  · intro text tok hsp
    unfold parseCommandLine
    rw [hsp]
  · intro text tok rest p hsp hj
    unfold parseCommandLine
    rw [hsp]
    simp only [hj]
  · intro text tok rest hsp hj
    unfold parseCommandLine
    rw [hsp]
    simp only [hj]
  · exact h2 _ _ _ (by rfl)
  · exact h2 _ _ _ (by rfl)
  · exact h2 _ _ _ (by rfl)
